import Mathlib

/-!
Verification development for the `udp_client_server` repository (Go).

The repository implements a UDP packet-reflection pipeline:
  * `udp_server.go`  : Receiver (`recvPacket`), Dispatcher (`hashPacket` /
    `commBackend`), Transmitter (`reflectPacket`);
  * `http_backend.go`: the Hashing Service (`hashHandler`, `get64FNV1aHash`,
    shutdown endpoint);
  * `udp_client.go`  : Sender / Reconciler (`sendMessages`, `countWritten`,
    `countWrittenRecv`).

This file shallowly embeds those functions: byte slices are `List Nat` with
bytes below 256, 64-bit machine integers are `Nat` reduced modulo `2 ^ 64`,
stateful loops are explicit state-passing functions, and the concurrent
dispatcher is a labelled transition system.  Fallible operations return
`Option`.
-/

namespace UdpClientServer

/-! ### FNV-1a 64-bit hashing (`http_backend.go`, `get64FNV1aHash`)

Go's `fnv.New64a()` implements FNV-1a over a 64-bit accumulator: the offset
basis is 14695981039346656037, the prime is 1099511628211, and `Write` folds
each byte by XOR-then-multiply modulo `2 ^ 64`.  The Go code keeps ONE global
`fnvHash` object; `get64FNV1aHash` writes the packet, reads `Sum64`, and
resets the accumulator via `defer fnvHash.Reset()`.  We model the global
accumulator by explicit state passing: the function takes the accumulator
value before the call and returns the hash together with the accumulator
value after the deferred `Reset`. -/

/-- FNV-1a 64-bit offset basis (Go `hash/fnv`). -/
def fnvOffsetBasis : Nat := 14695981039346656037

/-- FNV-1a 64-bit prime (Go `hash/fnv`). -/
def fnvPrime : Nat := 1099511628211

/-- One step of FNV-1a: XOR the byte into the accumulator, then multiply by
the prime, modulo `2 ^ 64` (Go `sum64a.Write` body). -/
def fnvWriteByte (acc b : Nat) : Nat := ((acc ^^^ b) * fnvPrime) % 2 ^ 64

/-- `fnvHash.Write packet` starting from accumulator `acc`. -/
def fnvWrite (acc : Nat) (packet : List Nat) : Nat := packet.foldl fnvWriteByte acc

/-- `get64FNV1aHash` from `http_backend.go`: given the current global
accumulator `st`, returns `(fnvHash.Sum64 after Write packet, accumulator
after the deferred Reset)`.  `Reset` restores the offset basis. -/
def get64FNV1aHash (st : Nat) (packet : List Nat) : Nat × Nat :=
  (fnvWrite st packet, fnvOffsetBasis)

/-- Modelled from the spec: the reference FNV-1a 64-bit hash, following the
spec's words "initialize an accumulator to a fixed offset basis; for each
byte in order, XOR the byte into the accumulator then multiply by the fixed
FNV prime, modulo 2^64". -/
def fnv1aSpec (p : List Nat) : Nat :=
  p.foldl (fun acc b => ((acc ^^^ b) * fnvPrime) % 2 ^ 64) fnvOffsetBasis

/-! ### Binary encodings (`encoding/binary`) -/

/-- `binary.BigEndian.PutUint64` into a fresh 8-byte buffer
(`http_backend.go` line 53). -/
def bigEndianPutUint64 (v : Nat) : List Nat :=
  [v / 2 ^ 56 % 256, v / 2 ^ 48 % 256, v / 2 ^ 40 % 256, v / 2 ^ 32 % 256,
   v / 2 ^ 24 % 256, v / 2 ^ 16 % 256, v / 2 ^ 8 % 256, v % 256]

/-- `binary.LittleEndian.Uint32` of (the first four bytes of) a buffer
(`udp_client.go` line 138; the Go call requires at least 4 bytes, which the
caller guarantees via the 108-byte length check). -/
def littleEndianUint32 (b : List Nat) : Nat :=
  b.getD 0 0 + b.getD 1 0 * 256 + b.getD 2 0 * 65536 + b.getD 3 0 * 16777216

/-! ### JSON encoding of byte slices (`encoding/json`)

Go's `json.Marshal` encodes a `[]byte` as a JSON string holding the standard
base64 encoding of the bytes, and `json.Unmarshal` into a `*[]byte` decodes
such a string back (replacing the destination slice).  We embed that encoding
concretely: base64 with `=` padding, wrapped in `"` (ASCII 34) quotes;
`json.NewEncoder(w).Encode` additionally appends a newline (ASCII 10). -/

/-- The base64 alphabet as a sextet-to-ASCII-code map (A–Z, a–z, 0–9, +, /). -/
def sextetToChar (s : Nat) : Nat :=
  if s < 26 then 65 + s
  else if s < 52 then 97 + (s - 26)
  else if s < 62 then 48 + (s - 52)
  else if s = 62 then 43
  else 47

/-- Inverse of `sextetToChar`; `none` on a character outside the alphabet. -/
def charToSextet (c : Nat) : Option Nat :=
  if 65 ≤ c ∧ c ≤ 90 then some (c - 65)
  else if 97 ≤ c ∧ c ≤ 122 then some (c - 97 + 26)
  else if 48 ≤ c ∧ c ≤ 57 then some (c - 48 + 52)
  else if c = 43 then some 62
  else if c = 47 then some 63
  else none

/-- Standard base64 encoding of a byte list, three input bytes per four
output characters, with `=` (ASCII 61) padding. -/
def base64Encode : List Nat → List Nat
  | [] => []
  | [b0] => [sextetToChar (b0 / 4), sextetToChar (b0 % 4 * 16), 61, 61]
  | [b0, b1] => [sextetToChar (b0 / 4), sextetToChar (b0 % 4 * 16 + b1 / 16),
                 sextetToChar (b1 % 16 * 4), 61]
  | b0 :: b1 :: b2 :: rest =>
      sextetToChar (b0 / 4) :: sextetToChar (b0 % 4 * 16 + b1 / 16) ::
      sextetToChar (b1 % 16 * 4 + b2 / 64) :: sextetToChar (b2 % 64) ::
      base64Encode rest

/-- Standard base64 decoding; `none` on malformed input. -/
def base64Decode : List Nat → Option (List Nat)
  | [] => some []
  | c0 :: c1 :: c2 :: c3 :: rest =>
      (charToSextet c0).bind fun s0 =>
      (charToSextet c1).bind fun s1 =>
      if c2 = 61 ∧ c3 = 61 ∧ rest = [] then
        some [s0 * 4 + s1 / 16]
      else if c3 = 61 ∧ rest = [] then
        (charToSextet c2).bind fun s2 =>
          some [s0 * 4 + s1 / 16, s1 % 16 * 16 + s2 / 4]
      else
        (charToSextet c2).bind fun s2 =>
        (charToSextet c3).bind fun s3 =>
        (base64Decode rest).map fun tail =>
          (s0 * 4 + s1 / 16) :: (s1 % 16 * 16 + s2 / 4) :: (s2 % 4 * 64 + s3) :: tail
  | _ => none

/-- `json.Marshal` of a `[]byte`: the base64 text wrapped in quotes. -/
def jsonMarshalBytes (p : List Nat) : List Nat := 34 :: (base64Encode p ++ [34])

/-- `json.Unmarshal` of a JSON value into a `*[]byte`: tolerate one trailing
newline (as written by `json.NewEncoder(...).Encode`), require surrounding
quotes, base64-decode the middle. -/
def jsonUnmarshalBytes (s : List Nat) : Option (List Nat) :=
  let t := if s.getLast? = some 10 then s.dropLast else s
  match t with
  | 34 :: rest => if rest.getLast? = some 34 then base64Decode rest.dropLast else none
  | _ => none

/-- `json.NewEncoder(w).Encode(buffer)` (`http_backend.go` line 59): the
marshalled bytes followed by a newline. -/
def jsonEncodeBytes (p : List Nat) : List Nat := jsonMarshalBytes p ++ [10]

/-! ### Round-trip lemmas for the JSON/base64 layer -/

theorem charToSextet_sextetToChar : ∀ s < 64, charToSextet (sextetToChar s) = some s := by
  decide

theorem sextetToChar_ne_eq : ∀ s < 64, sextetToChar s ≠ 61 := by
  decide

theorem base64_roundtrip :
    ∀ (p : List Nat), (∀ b ∈ p, b < 256) → base64Decode (base64Encode p) = some p
  | [], _ => rfl
  | [b0], h => by
      have hb0 : b0 < 256 := h b0 (by simp)
      have h1 : b0 / 4 < 64 := by omega
      have h2 : b0 % 4 * 16 < 64 := by omega
      simp [base64Encode, base64Decode, charToSextet_sextetToChar _ h1,
        charToSextet_sextetToChar _ h2]
      omega
  | [b0, b1], h => by
      have hb0 : b0 < 256 := h b0 (by simp)
      have hb1 : b1 < 256 := h b1 (by simp)
      have h1 : b0 / 4 < 64 := by omega
      have h2 : b0 % 4 * 16 + b1 / 16 < 64 := by omega
      have h3 : b1 % 16 * 4 < 64 := by omega
      simp [base64Encode, base64Decode, charToSextet_sextetToChar _ h1,
        charToSextet_sextetToChar _ h2, charToSextet_sextetToChar _ h3,
        sextetToChar_ne_eq _ h3]
      omega
  | [b0, b1, b2], h => by
      have hb0 : b0 < 256 := h b0 (by simp)
      have hb1 : b1 < 256 := h b1 (by simp)
      have hb2 : b2 < 256 := h b2 (by simp)
      have h1 : b0 / 4 < 64 := by omega
      have h2 : b0 % 4 * 16 + b1 / 16 < 64 := by omega
      have h3 : b1 % 16 * 4 + b2 / 64 < 64 := by omega
      have h4 : b2 % 64 < 64 := by omega
      simp [base64Encode, base64Decode, charToSextet_sextetToChar _ h1,
        charToSextet_sextetToChar _ h2, charToSextet_sextetToChar _ h3,
        charToSextet_sextetToChar _ h4, sextetToChar_ne_eq _ h3,
        sextetToChar_ne_eq _ h4]
      omega
  | b0 :: b1 :: b2 :: b3 :: rest, h => by
      have hb0 : b0 < 256 := h b0 (by simp)
      have hb1 : b1 < 256 := h b1 (by simp)
      have hb2 : b2 < 256 := h b2 (by simp)
      have h1 : b0 / 4 < 64 := by omega
      have h2 : b0 % 4 * 16 + b1 / 16 < 64 := by omega
      have h3 : b1 % 16 * 4 + b2 / 64 < 64 := by omega
      have h4 : b2 % 64 < 64 := by omega
      have ih := base64_roundtrip (b3 :: rest) (fun b hb => h b (by simp at hb ⊢; tauto))
      simp [base64Encode, base64Decode, charToSextet_sextetToChar _ h1,
        charToSextet_sextetToChar _ h2, charToSextet_sextetToChar _ h3,
        charToSextet_sextetToChar _ h4, sextetToChar_ne_eq _ h3,
        sextetToChar_ne_eq _ h4, ih]
      omega

theorem jsonUnmarshal_marshal (p : List Nat) (h : ∀ b ∈ p, b < 256) :
    jsonUnmarshalBytes (jsonMarshalBytes p) = some p := by
  unfold jsonMarshalBytes jsonUnmarshalBytes
  rw [show (34 : Nat) :: (base64Encode p ++ [34]) = (34 :: base64Encode p) ++ [34] from rfl,
      List.getLast?_concat]
  rw [if_neg (by simp)]
  simp only [List.cons_append, List.getLast?_concat, List.dropLast_concat]
  simpa using base64_roundtrip p h

theorem jsonUnmarshal_encode (p : List Nat) (h : ∀ b ∈ p, b < 256) :
    jsonUnmarshalBytes (jsonEncodeBytes p) = some p := by
  unfold jsonEncodeBytes jsonUnmarshalBytes
  rw [List.getLast?_concat, if_pos rfl, List.dropLast_concat]
  unfold jsonMarshalBytes
  rw [show (34 : Nat) :: (base64Encode p ++ [34]) = (34 :: base64Encode p) ++ [34] from rfl]
  simp only [List.cons_append, List.getLast?_concat, List.dropLast_concat]
  simpa using base64_roundtrip p h

theorem bigEndianPutUint64_length (v : Nat) : (bigEndianPutUint64 v).length = 8 := rfl

theorem bigEndianPutUint64_bytes (v : Nat) : ∀ b ∈ bigEndianPutUint64 v, b < 256 := by
  intro b hb
  simp only [bigEndianPutUint64, List.mem_cons, List.not_mem_nil, or_false] at hb
  rcases hb with h | h | h | h | h | h | h | h <;> subst h <;> omega

/-! ### Packets and addresses (`udp_server.go`)

`PacketStruct` pairs a payload with the sender's `*net.UDPAddr`.  A Go nil
pointer is modelled as `none`; `(*net.UDPAddr).String()` returns the text
`"<nil>"` on a nil receiver and an `ip:port` rendering otherwise. -/

/-- A `*net.UDPAddr` that is not nil: the resolved IP text and the port. -/
structure UDPAddr where
  ip : String
  port : Nat
deriving DecidableEq

/-- `PacketStruct` from `udp_server.go`: payload bytes plus origin address
(`none` models a nil `*net.UDPAddr`, as in the pool's placeholder
`&PacketStruct{}`). -/
structure PacketStruct where
  Packet : List Nat
  Addr : Option UDPAddr
deriving DecidableEq

/-- `(*net.UDPAddr).String()`: `"<nil>"` for a nil pointer, otherwise the
`ip:port` rendering produced by `net.JoinHostPort`. -/
def udpAddrString : Option UDPAddr → String
  | none => "<nil>"
  | some a => a.ip ++ ":" ++ toString a.port

/-! ### The Dispatcher's backend exchange (`commBackend`, `udp_server.go` 70–120)

`commBackend` runs as one goroutine per admitted packet.  Its fallible
library calls are modelled by an environment: `marshal` is `json.Marshal`
(`none` = error), `newRequestOk` is whether `http.NewRequest` succeeded,
`doRequest` maps the request body to the response body (`none` = transport
error from `client.Do`), and `readBody` is `ioutil.ReadAll` on the response
body (`none` = read error).  The final `json.Unmarshal` into the 8-byte
buffer is the concrete `jsonUnmarshalBytes`.

The outcome records what the goroutine did: which packet (if any) it sent to
`writeOut`, whether it received from `tokens` (releasing its admission
token), and whether the deferred `wgBackend.Done()` ran (it always does). -/

structure CommEnv where
  marshal : List Nat → Option (List Nat)
  newRequestOk : Bool
  doRequest : List Nat → Option (List Nat)
  readBody : List Nat → Option (List Nat)

structure CommOutcome where
  forwarded : Option PacketStruct
  tokenReleased : Bool
  wgDone : Bool
deriving DecidableEq

/-- `commBackend` from `udp_server.go`, line by line: marshal the payload;
build the request; `client.Do`; `ReadAll` the body; unmarshal the hash;
append it to the payload; send to `writeOut`; then — only on this success
path — receive from `tokens`.  Every error branch `return`s with just the
deferred `wgBackend.Done()`, leaving the token unreleased. -/
def commBackend (env : CommEnv) (packet : PacketStruct) : CommOutcome :=
  match env.marshal packet.Packet with
  | none => ⟨none, false, true⟩
  | some requestBody =>
    if env.newRequestOk = false then ⟨none, false, true⟩
    else
      match env.doRequest requestBody with
      | none => ⟨none, false, true⟩
      | some resp =>
        match env.readBody resp with
        | none => ⟨none, false, true⟩
        | some body =>
          match jsonUnmarshalBytes body with
          | none => ⟨none, false, true⟩
          | some buffer =>
            ⟨some ⟨packet.Packet ++ buffer, packet.Addr⟩, true, true⟩

/-! ### The Hashing Service handler (`hashHandler`, `http_backend.go` 19–65)

For a `GET /hash` request (the only kind `commBackend` sends), the handler
reads the request body, unmarshals it into a byte slice (the `json.Unmarshal`
error is ignored by the Go code, leaving the zero-filled
`make([]byte, ContentLength)` buffer in place), hashes it with
`get64FNV1aHash`, converts the hash to 8 big-endian bytes, and writes the
JSON encoding of those bytes (with the encoder's trailing newline).  `st` is
the global FNV accumulator before the call. -/
def hashHandler (st : Nat) (contentLength : Nat) (reqBody : List Nat) : List Nat × Nat :=
  let buffer := (jsonUnmarshalBytes reqBody).getD (List.replicate contentLength 0)
  let hashValue := get64FNV1aHash st buffer
  let outBuffer := bigEndianPutUint64 hashValue.1
  (jsonEncodeBytes outBuffer, hashValue.2)

/-- The environment `commBackend` actually runs against when the Hashing
Service is reachable and healthy: `json.Marshal` of a `[]byte` cannot fail,
`http.NewRequest` succeeds on the well-formed URL, the HTTP exchange returns
the handler's response body (handler entered with a freshly reset FNV
accumulator), and reading the response body succeeds. -/
def healthyEnv : CommEnv where
  marshal := fun p => some (jsonMarshalBytes p)
  newRequestOk := true
  doRequest := fun reqBody => some (hashHandler fnvOffsetBasis reqBody.length reqBody).1
  readBody := fun resp => some resp

/-- An environment whose `client.Do` fails (backend unreachable): used to
exercise `commBackend`'s network-error branch. -/
def downEnv : CommEnv where
  marshal := fun p => some (jsonMarshalBytes p)
  newRequestOk := true
  doRequest := fun _ => none
  readBody := fun resp => some resp

/-! ### The Dispatcher loop body (`hashPacket`, `udp_server.go` 141–167) -/

/-- What one iteration of `hashLoop` decides to do. -/
inductive DispatchDecision
  | exitLoop
  | skip
  | submit (p : PacketStruct)
deriving DecidableEq

/-- One iteration of `hashLoop`: if `doneChan` is ready, the `select` takes
it and breaks the loop; otherwise the default branch pops `item` from the
pool and submits it to `commBackend` (acquiring a token and spawning a
goroutine) exactly when its address field does not print `"<nil>"`. -/
def dispatchIteration (doneReady : Bool) (item : PacketStruct) : DispatchDecision :=
  if doneReady then .exitLoop
  else if udpAddrString item.Addr ≠ "<nil>" then .submit item
  else .skip

/-! ### The Receiver (`recvPacket`, `udp_server.go` 203–248)

Each loop iteration makes a 100-byte buffer, re-arms the read deadline, and
calls `conn.ReadFromUDP(buffer)`.  The result of one read is either a
timeout error (`*net.OpError` with `Timeout()` true), some other error, or a
successful read of a datagram from an address.  `ReadFromUDP` copies at most
`len(buffer) = 100` bytes and returns the count `n`; the staged slice is
`buffer[:n]`. -/

inductive ReadResult
  | timeoutErr
  | otherErr
  | ok (datagram : List Nat) (addr : UDPAddr)

/-- The packet staged by a successful read: `&PacketStruct{buffer[:n], addr}`
where `n = min (length datagram) 100` bytes were copied into the 100-byte
buffer. -/
def recvStage (datagram : List Nat) (addr : UDPAddr) : PacketStruct :=
  ⟨datagram.take 100, some addr⟩

structure RecvState where
  pool : List PacketStruct
  packetsRecvCounter : Nat
  doneSignaled : Bool
deriving DecidableEq

/-- How a run of the Receiver's loop ended: `graceful` (timeout observed,
loop broken, `doneChan <- struct{}{}` executed after the loop),
`aborted` (`log.Fatal` on a non-timeout read error, killing the process), or
`outOfTrace` (the given finite trace of read results was exhausted with the
loop still running). -/
inductive RecvOutcome
  | graceful (st : RecvState)
  | aborted (st : RecvState)
  | outOfTrace (st : RecvState)
deriving DecidableEq

/-- The state carried by any outcome. -/
def RecvOutcome.state : RecvOutcome → RecvState
  | .graceful st => st
  | .aborted st => st
  | .outOfTrace st => st

/-- `recvPacket`'s `receiveSendLoop`, driven by a finite trace of read
results: a timeout breaks the loop and the epilogue sends the shutdown
signal on `doneChan`; any other read error is `log.Fatal`; a successful read
stages `buffer[:n]` in the pool and increments the received-packet counter
before the next read. -/
def recvPacketLoop : List ReadResult → RecvState → RecvOutcome
  | [], st => .outOfTrace st
  | .timeoutErr :: _, st => .graceful { st with doneSignaled := true }
  | .otherErr :: _, st => .aborted st
  | .ok datagram addr :: rest, st =>
      recvPacketLoop rest
        { st with pool := st.pool ++ [recvStage datagram addr],
                  packetsRecvCounter := st.packetsRecvCounter + 1 }

/-! ### The client Reconciler (`udp_client.go`)

`countWritten` inserts every sent identifier into the shared map
(`set[packetContent] = true`); `countWrittenRecv` looks a received
identifier up, deletes it and bumps the matched counter when present, and
bumps the received-but-not-sent counter when absent.  The map of
`uint32 → bool` in which values are only ever `true` is modelled as a
`Finset`. -/

structure ClientState where
  set : Finset Nat
  packetsRecvCounter : Nat
  packetsRecvButNotSentCounter : Nat
deriving DecidableEq

/-- `recordSent`: the body of `countWritten`'s channel case
(`udp_client.go` lines 107–110), `set[packetContent] = true`. -/
def recordSent (st : ClientState) (id : Nat) : ClientState :=
  { st with set := insert id st.set }

/-- `recordReceived`: the body of `countWrittenRecv` for an extracted
identifier (`udp_client.go` lines 139–156): read `value := set[intPacket]`;
if `true`, delete the entry and increment the matched counter; otherwise
increment the received-but-not-sent counter. -/
def recordReceived (st : ClientState) (id : Nat) : ClientState :=
  if id ∈ st.set then
    { st with set := st.set.erase id,
              packetsRecvCounter := st.packetsRecvCounter + 1 }
  else
    { st with packetsRecvButNotSentCounter := st.packetsRecvButNotSentCounter + 1 }

/-- The whole per-packet body of `countWrittenRecv` (`udp_client.go` lines
132–157): packets shorter than 108 bytes are only logged; otherwise the
identifier is the little-endian `uint32` of the first 4 of the packet's
first 100 bytes and the set is reconciled. -/
def countWrittenRecvStep (st : ClientState) (packet : List Nat) : ClientState :=
  if packet.length < 108 then st
  else recordReceived st (littleEndianUint32 (packet.take 100))

/-- `n` successive arrivals of the same identifier at `countWrittenRecv`. -/
def processArrivals (st : ClientState) (id : Nat) : Nat → ClientState
  | 0 => st
  | n + 1 => processArrivals (recordReceived st id) id n

/-! ### The Dispatcher's shutdown request (`hashPacket`, `udp_server.go` 176–192)

After `close(writeOut)` the code builds a `GET` request for `/shutdown` and
calls `client.Do`.  The error from `client.Do` is logged — and then
`ioutil.ReadAll(resp.Body)` runs unconditionally, so a failed request leaves
`resp` nil and the read panics with a nil-pointer dereference. -/

inductive ShutdownOutcome
  | panicked
  | completed (body : List Nat)
deriving DecidableEq

/-- The shutdown epilogue: `doResult` is what `client.Do` produced (`none` =
error, so `resp` is the nil pointer).  The code reads `resp.Body` in both
cases; on `none` that dereferences nil. -/
def shutdownSequence (doResult : Option (List Nat)) : ShutdownOutcome :=
  match doResult with
  | none => .panicked
  | some respBody => .completed respBody

/-! ### The Dispatcher as a labelled transition system (`hashPacket`)

State of the `hashPacket` goroutine together with its `commBackend`
children.  `tokens` is the number of values currently buffered in the
`tokens` channel (`make(chan struct{}, numConcurrentJobs)`); `inFlight` is
the `wgBackend` count of admitted exchanges whose goroutine has not yet
finished; `forwarded` is the sequence of packets sent to `writeOut`;
`shutdownCalls` counts `GET /shutdown` requests issued.

Phases follow the sequential structure of `hashPacket`:
`running` = inside `hashLoop`; `draining` = broke out of the loop, inside
`wgBackend.Wait()`; `closed` = `close(writeOut)` executed; `terminated` =
the shutdown request was issued and the function is returning. -/

inductive Phase
  | running
  | draining
  | closed
  | terminated
deriving DecidableEq

structure HashState where
  phase : Phase
  tokens : Nat
  inFlight : Nat
  forwarded : List PacketStruct
  shutdownCalls : Nat
deriving DecidableEq

/-- Labels of the Dispatcher system's transitions. -/
inductive HLabel
  | observeDone
  | acquire (p : PacketStruct)
  | complete (env : CommEnv) (p : PacketStruct)
  | closeChan
  | callShutdown

/-- The transition relation of the Dispatcher system, `numConcurrentJobs`
fixed at `njobs`.
  * `observeDone`: the `select` takes the `doneChan` case and breaks
    `hashLoop`.
  * `acquire`: the default case popped a real packet (address not `"<nil>"`)
    and executes `tokens <- struct{}{}`; a send on a buffered channel is
    only possible while the buffer holds fewer than `njobs` values — at
    capacity the send blocks, i.e. no transition exists.  `wgBackend.Add(1)`
    and the `go commBackend(...)` spawn follow.
  * `complete`: one running `commBackend` goroutine finishes with the
    outcome determined by its environment: it sent its packet to `writeOut`
    iff the exchange succeeded, received from `tokens` iff it reached its
    last line, and always ran the deferred `wgBackend.Done()`.
  * `closeChan`: `wgBackend.Wait()` returns — only when no exchange is in
    flight — and `close(writeOut)` executes.
  * `callShutdown`: the `GET /shutdown` request is issued, once, directly
    after the close. -/
inductive HashStep (njobs : Nat) : HashState → HLabel → HashState → Prop
  | observeDone (s : HashState) :
      s.phase = .running →
      HashStep njobs s .observeDone { s with phase := .draining }
  | acquire (s : HashState) (p : PacketStruct) :
      s.phase = .running →
      udpAddrString p.Addr ≠ "<nil>" →
      s.tokens < njobs →
      HashStep njobs s (.acquire p)
        { s with tokens := s.tokens + 1, inFlight := s.inFlight + 1 }
  | complete (s : HashState) (env : CommEnv) (p : PacketStruct) :
      0 < s.inFlight →
      HashStep njobs s (.complete env p)
        { s with
            inFlight := s.inFlight - 1,
            tokens := if (commBackend env p).tokenReleased then s.tokens - 1 else s.tokens,
            forwarded := s.forwarded ++ (commBackend env p).forwarded.toList }
  | closeChan (s : HashState) :
      s.phase = .draining →
      s.inFlight = 0 →
      HashStep njobs s .closeChan { s with phase := .closed }
  | callShutdown (s : HashState) :
      s.phase = .closed →
      HashStep njobs s .callShutdown
        { s with phase := .terminated, shutdownCalls := s.shutdownCalls + 1 }

/-- The Dispatcher's initial state: inside `hashLoop`, empty `tokens`
channel, no exchange in flight, nothing forwarded, no shutdown issued. -/
def initHashState : HashState :=
  ⟨.running, 0, 0, [], 0⟩

/-- A step with some label. -/
def hashStepAny (njobs : Nat) (s t : HashState) : Prop :=
  ∃ l, HashStep njobs s l t

/-- States the Dispatcher system can reach from its initial state. -/
def Reachable (njobs : Nat) (s : HashState) : Prop :=
  Relation.ReflTransGen (hashStepAny njobs) initHashState s

/-- The inductive invariant of the Dispatcher system: the `tokens` buffer
never exceeds its capacity, every in-flight exchange holds a token, no
exchange survives `close(writeOut)`, and the shutdown request has been
issued exactly in the terminated phase. -/
def HashInv (njobs : Nat) (s : HashState) : Prop :=
  s.tokens ≤ njobs ∧
  s.inFlight ≤ s.tokens ∧
  ((s.phase = .closed ∨ s.phase = .terminated) → s.inFlight = 0) ∧
  s.shutdownCalls = (if s.phase = .terminated then 1 else 0)

theorem hashInv_init (njobs : Nat) : HashInv njobs initHashState := by
  refine ⟨Nat.zero_le _, Nat.le_refl _, fun _ => rfl, ?_⟩
  simp [initHashState]

theorem hashInv_step {njobs : Nat} {s t : HashState} {l : HLabel}
    (hs : HashInv njobs s) (hst : HashStep njobs s l t) : HashInv njobs t := by
  obtain ⟨h1, h2, h3, h4⟩ := hs
  cases hst with
  | observeDone hp =>
      refine ⟨h1, h2, ?_, ?_⟩ <;> dsimp only <;> simp_all
  | acquire p hp haddr htok =>
      refine ⟨?_, ?_, ?_, ?_⟩ <;> dsimp only
      · omega
      · omega
      · simp_all
      · simp_all
  | complete env p hin =>
      refine ⟨?_, ?_, ?_, ?_⟩ <;> dsimp only
      · split <;> omega
      · split <;> omega
      · intro hph
        have := h3 hph
        omega
      · exact h4
  | closeChan hp hin =>
      refine ⟨h1, h2, fun _ => hin, ?_⟩
      dsimp only
      simp_all
  | callShutdown hp =>
      refine ⟨h1, h2, ?_, ?_⟩ <;> dsimp only <;> simp_all

theorem hashInv_reachable {njobs : Nat} {s : HashState}
    (h : Reachable njobs s) : HashInv njobs s := by
  induction h with
  | refl => exact hashInv_init njobs
  | tail _ hstep ih => exact hashInv_step ih hstep.choose_spec

/-- A non-nil `*net.UDPAddr` never prints `"<nil>"`: its rendering contains
the `:` separator, which `"<nil>"` does not. -/
theorem udpAddrString_some_ne (a : UDPAddr) : udpAddrString (some a) ≠ "<nil>" := by
  intro h
  have hdata : (a.ip ++ ":" ++ toString a.port).data = "<nil>".data :=
    congrArg String.data h
  have hmem : ':' ∈ (a.ip ++ ":" ++ toString a.port).data := by
    simp only [String.data_append]
    exact List.mem_append_left _ (List.mem_append_right _ (by decide))
  rw [hdata] at hmem
  revert hmem
  decide

/-! ## Claim theorems -/

/-- C3: for every byte sequence `p`, `get64FNV1aHash` (entered with the
properly reset accumulator) returns exactly the reference FNV-1a 64-bit hash
of the bytes of `p` — offset basis, then per byte XOR and multiplication by
the FNV prime modulo `2 ^ 64` — and a second call on the same input, from
the accumulator state the first call leaves behind, returns the identical
value (determinism). -/
theorem hash_matches_fnv1a_reference_and_is_deterministic (p : List Nat) :
    (get64FNV1aHash fnvOffsetBasis p).1 = fnv1aSpec p ∧
    (get64FNV1aHash (get64FNV1aHash fnvOffsetBasis p).2 p).1 =
      (get64FNV1aHash fnvOffsetBasis p).1 :=
  ⟨rfl, rfl⟩

/-- C7: one `hashLoop` iteration that pops an item from the staging pool
skips a placeholder (nil origin address, which prints `"<nil>"`) without any
backend submission, and submits a real packet (origin address set) — the
single `.submit` decision is the one `go commBackend(...)` spawn for that
item. -/
theorem dispatcher_submits_real_packets_only
    (payload : List Nat) (a : UDPAddr) :
    dispatchIteration false ⟨payload, none⟩ = .skip ∧
    dispatchIteration false ⟨payload, some a⟩ = .submit ⟨payload, some a⟩ := by
  constructor
  · simp [dispatchIteration, udpAddrString]
  · simp [dispatchIteration, udpAddrString_some_ne a]

/-- C9: the claim says the shutdown handling reads the response body only
when the request succeeded; the code instead runs
`ioutil.ReadAll(resp.Body)` unconditionally, so when `client.Do` returns an
error (`resp` nil) the read dereferences the nil response and panics.  This
theorem evaluates the shutdown epilogue at that failing input. -/
theorem shutdown_deref_on_failed_request :
    shutdownSequence none = .panicked := rfl

/-- C2: the claim says the admission token is released on every failure
outcome of the backend exchange; the code releases it (`<-tokens`) only on
the success path.  This theorem evaluates `commBackend` at a failing input —
a real packet whose `client.Do` call fails — and shows the goroutine
finishes (`wgDone`) forwarding nothing and with `tokenReleased = false`. -/
theorem commBackend_leaks_token_on_network_error :
    commBackend downEnv ⟨[1, 2, 3], some ⟨"127.0.0.1", 40000⟩⟩ =
      ⟨none, false, true⟩ := rfl

/-- C10: the payload of every packet the Receiver stages is the first
`min n 100` bytes of the datagram — the 100-byte read buffer truncates
longer datagrams and `buffer[:n]` takes exactly the `n` bytes read — and so
every packet the Receiver's loop ever hands to the staging pool has length
at most 100. -/
theorem receiver_stages_at_most_100_bytes :
    (∀ (datagram : List Nat) (addr : UDPAddr),
        (recvStage datagram addr).Packet = datagram.take 100 ∧
        (recvStage datagram addr).Packet.length = min datagram.length 100 ∧
        (recvStage datagram addr).Packet.length ≤ 100) ∧
    (∀ (trace : List ReadResult) (st : RecvState),
        (∀ q ∈ st.pool, q.Packet.length ≤ 100) →
        ∀ q ∈ (recvPacketLoop trace st).state.pool, q.Packet.length ≤ 100) := by
  constructor
  · intro datagram addr
    refine ⟨rfl, ?_, ?_⟩
    · simp [recvStage, Nat.min_comm]
    · simp [recvStage]
  · intro trace
    induction trace with
    | nil => intro st h; exact h
    | cons r rest ih =>
        intro st h
        cases r with
        | timeoutErr => exact h
        | otherErr => exact h
        | ok d a =>
            apply ih
            intro q hq
            rcases List.mem_append.mp hq with hq | hq
            · exact h q hq
            · rw [List.mem_singleton.mp hq]
              simp [recvStage]

/-- Witness for C10 at a concrete oversized datagram: a 150-byte datagram is
staged truncated to 100 bytes. -/
theorem receiver_stages_at_most_100_bytes_witness :
    ((recvPacketLoop [ReadResult.ok (List.replicate 150 7) ⟨"10.0.0.1", 9⟩,
        ReadResult.timeoutErr] ⟨[], 0, false⟩).state.pool.all
      fun q => q.Packet.length ≤ 100) = true := by
  have h := receiver_stages_at_most_100_bytes.2
    [ReadResult.ok (List.replicate 150 7) ⟨"10.0.0.1", 9⟩, ReadResult.timeoutErr]
    ⟨[], 0, false⟩ (by simp)
  rw [List.all_eq_true]
  intro q hq
  simpa using h q hq

/-- If an identifier is absent from the reconciliation set, any number of
further arrivals of it only bump the unmatched counter. -/
theorem processArrivals_absent (id : Nat) :
    ∀ (n : Nat) (st : ClientState), id ∉ st.set →
      processArrivals st id n =
        { st with packetsRecvButNotSentCounter :=
                    st.packetsRecvButNotSentCounter + n }
  | 0, st, _ => rfl
  | n + 1, st, h => by
      have hset : (recordReceived st id).set = st.set := by
        simp [recordReceived, h]
      show processArrivals (recordReceived st id) id n = _
      rw [processArrivals_absent id n (recordReceived st id) (by rw [hset]; exact h)]
      have harith : st.packetsRecvButNotSentCounter + 1 + n =
          st.packetsRecvButNotSentCounter + (n + 1) := by omega
      simp [recordReceived, h, harith]

/-- C6: `recordReceived` checks presence of the identifier in the
reconciliation set; if present it removes it and increments the matched
counter, if absent it increments the unmatched counter and leaves the set
unchanged — it is a total function, never aborting.  The packet-level body
of `countWrittenRecv` reduces to it for every packet of at least 108 bytes.
For an identifier inserted once by `recordSent`, a run of `n + 1` arrivals
matches exactly the first: the matched counter rises by one, the unmatched
counter by `n`, and the identifier is no longer in the set afterwards. -/
theorem recordReceived_matches_at_most_once :
    (∀ (st : ClientState) (id : Nat), id ∈ st.set →
        recordReceived st id =
          ⟨st.set.erase id, st.packetsRecvCounter + 1,
           st.packetsRecvButNotSentCounter⟩) ∧
    (∀ (st : ClientState) (id : Nat), id ∉ st.set →
        recordReceived st id =
          ⟨st.set, st.packetsRecvCounter, st.packetsRecvButNotSentCounter + 1⟩) ∧
    (∀ (st : ClientState) (pkt : List Nat), 108 ≤ pkt.length →
        countWrittenRecvStep st pkt =
          recordReceived st (littleEndianUint32 (pkt.take 100))) ∧
    (∀ (st : ClientState) (id n : Nat),
        processArrivals (recordSent st id) id (n + 1) =
          ⟨(insert id st.set).erase id, st.packetsRecvCounter + 1,
           st.packetsRecvButNotSentCounter + n⟩ ∧
        id ∉ (processArrivals (recordSent st id) id (n + 1)).set) := by
  refine ⟨?_, ?_, ?_, ?_⟩
  · intro st id h
    simp [recordReceived, h]
  · intro st id h
    simp [recordReceived, h]
  · intro st pkt h
    simp [countWrittenRecvStep, Nat.not_lt.mpr h]
  · intro st id n
    have hmem : id ∈ (recordSent st id).set := Finset.mem_insert_self id st.set
    have h2 : recordReceived (recordSent st id) id =
        ⟨(insert id st.set).erase id, st.packetsRecvCounter + 1,
         st.packetsRecvButNotSentCounter⟩ := by
      simp [recordReceived, recordSent, hmem]
    have habs : id ∉ (insert id st.set).erase id := Finset.not_mem_erase id _
    have hrun : processArrivals (recordSent st id) id (n + 1) =
        ⟨(insert id st.set).erase id, st.packetsRecvCounter + 1,
         st.packetsRecvButNotSentCounter + n⟩ := by
      show processArrivals (recordReceived (recordSent st id) id) id n = _
      rw [h2, processArrivals_absent id n _ habs]
    exact ⟨hrun, by rw [hrun]; exact habs⟩

/-- Witness for C6 at concrete states: a present identifier is matched and
removed, an absent one is counted unmatched with the set untouched, a
108-byte packet reaches the reconciliation code, and of three arrivals of a
once-sent identifier only the first matches. -/
theorem recordReceived_matches_at_most_once_witness :
    recordReceived ⟨{7}, 0, 0⟩ 7 = ⟨Finset.erase {7} 7, 1, 0⟩ ∧
    recordReceived ⟨{7}, 0, 0⟩ 9 = ⟨{7}, 0, 1⟩ ∧
    countWrittenRecvStep ⟨{7}, 0, 0⟩ (List.replicate 108 0) =
      recordReceived ⟨{7}, 0, 0⟩
        (littleEndianUint32 ((List.replicate 108 0).take 100)) ∧
    processArrivals (recordSent ⟨∅, 0, 0⟩ 42) 42 3 =
      ⟨(insert 42 (∅ : Finset Nat)).erase 42, 1, 2⟩ :=
  ⟨recordReceived_matches_at_most_once.1 ⟨{7}, 0, 0⟩ 7 (by decide),
   recordReceived_matches_at_most_once.2.1 ⟨{7}, 0, 0⟩ 9 (by decide),
   recordReceived_matches_at_most_once.2.2.1 ⟨{7}, 0, 0⟩ (List.replicate 108 0) (by simp),
   (recordReceived_matches_at_most_once.2.2.2 ⟨∅, 0, 0⟩ 42 2).1⟩

/-- C4: against the healthy Hashing Service, the backend exchange for a
100-byte payload forwards to the Transmitter (which writes it unchanged to
the packet's recorded origin) a 108-byte reply whose first 100 bytes are the
payload unchanged and whose bytes 100–107 are the big-endian 64-bit FNV-1a
hash of that payload. -/
theorem pipeline_reply_echoes_payload_and_appends_hash
    (p : List Nat) (a : UDPAddr) (hlen : p.length = 100)
    (hbytes : ∀ b ∈ p, b < 256) :
    commBackend healthyEnv ⟨p, some a⟩ =
      ⟨some ⟨p ++ bigEndianPutUint64 (get64FNV1aHash fnvOffsetBasis p).1, some a⟩,
       true, true⟩ ∧
    (p ++ bigEndianPutUint64 (get64FNV1aHash fnvOffsetBasis p).1).length = 108 ∧
    (p ++ bigEndianPutUint64 (get64FNV1aHash fnvOffsetBasis p).1).take 100 = p ∧
    (p ++ bigEndianPutUint64 (get64FNV1aHash fnvOffsetBasis p).1).drop 100 =
      bigEndianPutUint64 (get64FNV1aHash fnvOffsetBasis p).1 := by
  refine ⟨?_, ?_, ?_, ?_⟩
  · unfold commBackend healthyEnv hashHandler
    simp [jsonUnmarshal_marshal p hbytes,
          jsonUnmarshal_encode _ (bigEndianPutUint64_bytes _), get64FNV1aHash]
  · simp [hlen, bigEndianPutUint64]
  · rw [← hlen, List.take_left]
  · rw [← hlen, List.drop_left]

/-- Witness for C4 at a concrete all-zero 100-byte payload. -/
theorem pipeline_reply_witness :
    (List.replicate 100 (0 : Nat)).length = 100 ∧
    commBackend healthyEnv ⟨List.replicate 100 0, some ⟨"127.0.0.1", 40000⟩⟩ =
      ⟨some ⟨List.replicate 100 0 ++
              bigEndianPutUint64 (get64FNV1aHash fnvOffsetBasis (List.replicate 100 0)).1,
             some ⟨"127.0.0.1", 40000⟩⟩, true, true⟩ :=
  ⟨by simp,
   (pipeline_reply_echoes_payload_and_appends_hash (List.replicate 100 0)
      ⟨"127.0.0.1", 40000⟩ (by simp)
      (by intro b hb; rw [List.eq_of_mem_replicate hb]; norm_num)).1⟩

/-- The Receiver's loop consumes a prefix of successful reads by staging
each datagram and counting it, before looking at the next read result. -/
theorem recvPacketLoop_consumes_oks (pre : List (List Nat × UDPAddr)) :
    ∀ (suffix : List ReadResult) (st : RecvState),
      recvPacketLoop ((pre.map fun q => ReadResult.ok q.1 q.2) ++ suffix) st =
        recvPacketLoop suffix
          ⟨st.pool ++ pre.map fun q => recvStage q.1 q.2,
           st.packetsRecvCounter + pre.length, st.doneSignaled⟩ := by
  induction pre with
  | nil => intro suffix st; simp
  | cons q pre ih =>
      intro suffix st
      show recvPacketLoop ((pre.map fun r => ReadResult.ok r.1 r.2) ++ suffix)
          ⟨st.pool ++ [recvStage q.1 q.2], st.packetsRecvCounter + 1,
           st.doneSignaled⟩ = _
      rw [ih]
      have hpool : st.pool ++ [recvStage q.1 q.2] ++
          pre.map (fun r => recvStage r.1 r.2) =
          st.pool ++ (recvStage q.1 q.2 :: pre.map fun r => recvStage r.1 r.2) := by
        simp
      have hcnt : st.packetsRecvCounter + 1 + pre.length =
          st.packetsRecvCounter + (pre.length + 1) := by omega
      rw [hpool, hcnt]
      rfl

/-- C8: the Receiver's read loop terminates normally exactly when a read
fails with a timeout error (after some prefix of successful reads); on that
path it has staged and counted every successfully read datagram, and sends
the shutdown signal on `doneChan` on its way out.  A non-timeout read error
aborts the process via `log.Fatal`.  Each successful read is staged and
counted before the next read is attempted. -/
theorem receiver_graceful_iff_timeout :
    (∀ (trace : List ReadResult) (st : RecvState),
        (∃ st', recvPacketLoop trace st = .graceful st') ↔
        ∃ (pre : List (List Nat × UDPAddr)) (rest : List ReadResult),
          trace = (pre.map fun q => ReadResult.ok q.1 q.2) ++
            ReadResult.timeoutErr :: rest) ∧
    (∀ (pre : List (List Nat × UDPAddr)) (rest : List ReadResult) (st : RecvState),
        recvPacketLoop
            ((pre.map fun q => ReadResult.ok q.1 q.2) ++
              ReadResult.timeoutErr :: rest) st =
          .graceful ⟨st.pool ++ pre.map fun q => recvStage q.1 q.2,
                     st.packetsRecvCounter + pre.length, true⟩) ∧
    (∀ (rest : List ReadResult) (st : RecvState),
        recvPacketLoop (ReadResult.otherErr :: rest) st = .aborted st) ∧
    (∀ (d : List Nat) (a : UDPAddr) (rest : List ReadResult) (st : RecvState),
        recvPacketLoop (ReadResult.ok d a :: rest) st =
          recvPacketLoop rest
            ⟨st.pool ++ [recvStage d a], st.packetsRecvCounter + 1,
             st.doneSignaled⟩) := by
  refine ⟨?_, ?_, fun _ _ => rfl, fun _ _ _ _ => rfl⟩
  · intro trace st
    induction trace generalizing st with
    | nil =>
        constructor
        · rintro ⟨st', h⟩
          simp [recvPacketLoop] at h
        · rintro ⟨pre, rest, h⟩
          exact absurd h (by simp)
    | cons r rest ih =>
        cases r with
        | timeoutErr =>
            constructor
            · intro _
              exact ⟨[], rest, rfl⟩
            · intro _
              exact ⟨_, rfl⟩
        | otherErr =>
            constructor
            · rintro ⟨st', h⟩
              simp [recvPacketLoop] at h
            · rintro ⟨pre, rest', h⟩
              cases pre with
              | nil => simp at h
              | cons q pre => simp at h
        | ok d a =>
            constructor
            · rintro ⟨st', h⟩
              obtain ⟨pre, rest', heq⟩ := (ih _).mp ⟨st', h⟩
              exact ⟨(d, a) :: pre, rest', by simp [heq]⟩
            · rintro ⟨pre, rest', h⟩
              cases pre with
              | nil => simp at h
              | cons q pre =>
                  simp only [List.map_cons, List.cons_append, List.cons.injEq] at h
                  obtain ⟨hq, htail⟩ := h
                  refine (ih _).mpr ⟨pre, rest', ?_⟩
                  cases hq
                  exact htail
  · intro pre rest st
    rw [recvPacketLoop_consumes_oks]
    rfl

/-- Witness for C8: a concrete trace of one successful read followed by a
timeout terminates gracefully with the datagram staged, the counter
incremented, and the shutdown signal sent. -/
theorem receiver_graceful_iff_timeout_witness :
    recvPacketLoop
        [ReadResult.ok [5, 6] ⟨"10.0.0.2", 7⟩, ReadResult.timeoutErr]
        ⟨[], 0, false⟩ =
      .graceful ⟨[recvStage [5, 6] ⟨"10.0.0.2", 7⟩], 1, true⟩ := by
  have h := receiver_graceful_iff_timeout.2.1 [([5, 6], ⟨"10.0.0.2", 7⟩)] []
    ⟨[], 0, false⟩
  simpa using h

/-- C1: in every reachable state of the Dispatcher system the number of
outstanding admission tokens is at most `n_jobs`; a token acquisition
attempted while exactly `n_jobs` tokens are outstanding has no enabled
transition (the buffered-channel send blocks), and it becomes enabled again
as soon as some exchange returns its token. -/
theorem admission_tokens_bounded_and_blocking (njobs : Nat) (hn : 1 ≤ njobs) :
    (∀ s : HashState, Reachable njobs s → s.tokens ≤ njobs) ∧
    (∀ (s s' : HashState) (p : PacketStruct),
        s.tokens = njobs → ¬ HashStep njobs s (.acquire p) s') ∧
    (∀ (s s' : HashState) (env : CommEnv) (q : PacketStruct),
        s.tokens = njobs → s.phase = .running →
        HashStep njobs s (.complete env q) s' →
        (commBackend env q).tokenReleased = true →
        ∀ (p : PacketStruct) (b : UDPAddr), p.Addr = some b →
          ∃ s'', HashStep njobs s' (.acquire p) s'') := by
  refine ⟨?_, ?_, ?_⟩
  · intro s hs
    exact (hashInv_reachable hs).1
  · intro s s' p htok hstep
    cases hstep with
    | acquire _ hp haddr hlt => omega
  · intro s s' env q htok hph hstep hrel p b hpb
    cases hstep with
    | complete hin =>
        refine ⟨_, HashStep.acquire _ p hph ?_ ?_⟩
        · rw [hpb]
          exact udpAddrString_some_ne b
        · dsimp only
          rw [hrel]
          simp only [if_true]
          omega

/-- Witness for C1 at `n_jobs = 1`: the state after one admission from the
initial state is reachable and holds at most one token. -/
theorem admission_tokens_bounded_witness :
    (1 ≤ 1) ∧
    ({ phase := .running, tokens := 1, inFlight := 1, forwarded := [],
       shutdownCalls := 0 } : HashState).tokens ≤ 1 :=
  ⟨Nat.le_refl 1,
   (admission_tokens_bounded_and_blocking 1 (Nat.le_refl 1)).1 _
     (Relation.ReflTransGen.single
       ⟨.acquire ⟨[1], some ⟨"127.0.0.1", 4⟩⟩,
        HashStep.acquire initHashState ⟨[1], some ⟨"127.0.0.1", 4⟩⟩ rfl
          (udpAddrString_some_ne _) (by decide)⟩)⟩

/-- C5: after the Dispatcher observes the shutdown signal it never admits a
new packet (and never re-enters the loop); `close(writeOut)` can only
execute once no backend exchange is in flight, so every admitted exchange —
and hence every successful forward — completes before the close, and no
completion happens after it; the shutdown request to the Hashing Service is
issued exactly once, from the state directly after the close. -/
theorem dispatcher_drains_closes_then_shutdown (njobs : Nat) :
    (∀ (s s' : HashState) (l : HLabel),
        HashStep njobs s l s' → s.phase ≠ .running →
        (∀ p : PacketStruct, l ≠ .acquire p) ∧ s'.phase ≠ .running) ∧
    (∀ s s' : HashState, HashStep njobs s .closeChan s' → s.inFlight = 0) ∧
    (∀ s : HashState, Reachable njobs s →
        s.phase = .closed ∨ s.phase = .terminated →
        s.inFlight = 0 ∧ ∀ (env : CommEnv) (p : PacketStruct) (s' : HashState),
          ¬ HashStep njobs s (.complete env p) s') ∧
    (∀ s : HashState, Reachable njobs s →
        s.shutdownCalls ≤ 1 ∧ (s.shutdownCalls = 1 ↔ s.phase = .terminated)) ∧
    (∀ s s' : HashState, HashStep njobs s .callShutdown s' → s.phase = .closed) ∧
    (∀ s : HashState, s.phase = .closed →
        ∃ s', HashStep njobs s .callShutdown s') := by
  refine ⟨?_, ?_, ?_, ?_, ?_, ?_⟩
  · intro s s' l hstep hph
    cases hstep with
    | observeDone hp => exact absurd hp hph
    | acquire p hp haddr hlt => exact absurd hp hph
    | complete env p hin => exact ⟨fun p h => HLabel.noConfusion h, hph⟩
    | closeChan hp hin =>
        exact ⟨fun p h => HLabel.noConfusion h, by simp⟩
    | callShutdown hp =>
        exact ⟨fun p h => HLabel.noConfusion h, by simp⟩
  · intro s s' hstep
    cases hstep with
    | closeChan hp hin => exact hin
  · intro s hs hph
    have hin := (hashInv_reachable hs).2.2.1 hph
    refine ⟨hin, ?_⟩
    intro env p s' hstep
    cases hstep with
    | complete h0 => omega
  · intro s hs
    have h4 := (hashInv_reachable hs).2.2.2
    rw [h4]
    constructor
    · split <;> omega
    · constructor
      · intro h1
        by_contra hterm
        rw [if_neg hterm] at h1
        omega
      · intro hterm
        rw [if_pos hterm]
  · intro s s' hstep
    cases hstep with
    | callShutdown hp => exact hp
  · intro s hp
    exact ⟨_, HashStep.callShutdown s hp⟩

/-- Witness for C5 at a concrete reachable terminated state, reached by
observing the shutdown signal, closing the output, and issuing the shutdown
request: the shutdown endpoint was invoked exactly once. -/
theorem dispatcher_drains_witness :
    ({ phase := .terminated, tokens := 0, inFlight := 0, forwarded := [],
       shutdownCalls := 1 } : HashState).shutdownCalls ≤ 1 :=
  ((dispatcher_drains_closes_then_shutdown 2).2.2.2.1 _
    (Relation.ReflTransGen.tail
      (Relation.ReflTransGen.tail
        (Relation.ReflTransGen.tail Relation.ReflTransGen.refl
          ⟨.observeDone, HashStep.observeDone initHashState rfl⟩)
        ⟨.closeChan, HashStep.closeChan _ rfl rfl⟩)
      ⟨.callShutdown, HashStep.callShutdown _ rfl⟩)).1

end UdpClientServer
